import Mathlib

/-!
Shallow embedding of the proxyflare worker
(`src/proxyflare/workers/rust/src/lib.rs`): a stateless HTTP forwarding
proxy.  The per-request pipeline (`do_main`) is embedded as a pure function
from the inbound request (plus the random IP that the runtime-dependent
`generate_random_ip` would produce for this request) to a `ProxyOutcome`:
either an immediate response (preflight / client error) or a description of
the outbound request that would be fetched.  The external `url` crate's
`Url::parse` and the JS `Headers` container are modelled by explicit
functions on lists of string pairs, as noted at each definition.
-/

/-- A key/value pair: a query parameter or a header. -/
abbrev Pair := String × String

/-- ASCII lowercase of one character; models Rust `char::to_lowercase` on the
ASCII header names this program compares. -/
def asciiLower (c : Char) : Char :=
  if 65 ≤ c.toNat ∧ c.toNat ≤ 90 then Char.ofNat (c.toNat + 32) else c

/-- ASCII lowercase of a string; models `str::to_lowercase` for header names. -/
def lowerStr (s : String) : String :=
  ⟨s.data.map asciiLower⟩

/-- `trim_start_matches('/')`: remove every leading `/`. -/
def stripLeadingSlashes (s : String) : String :=
  ⟨s.data.dropWhile (fun c => c == '/')⟩

/-- `str::starts_with`, via the character lists. -/
def startsWithStr (s pre : String) : Bool :=
  pre.data.isPrefixOf s.data

/-- The inbound request as the worker sees it: method, URL path, decoded
query pairs in original order, and the header list as iterated by the JS
`Headers` object (each name occurring once). -/
structure InboundRequest where
  method : String
  path : String
  query : List Pair
  headers : List Pair
  deriving Repr, DecidableEq

/-- A parsed absolute URL: scheme, host, path and decoded query pairs. -/
structure ParsedUrl where
  scheme : String
  host : String
  path : String
  query : List Pair
  deriving Repr, DecidableEq

/-- The outbound request handed to `Fetch`. -/
structure OutboundRequest where
  url : ParsedUrl
  headers : List Pair
  method : String
  deriving Repr, DecidableEq

/-- Result of the pure part of `do_main`: an immediate response (status,
body, headers) produced before any network call, or the outbound request
that is fetched. -/
inductive ProxyOutcome where
  | respond (status : Nat) (body : String) (headers : List Pair)
  | forward (out : OutboundRequest)
  deriving Repr, DecidableEq

/-! ### URL parsing (modelled from the `url` crate, external dependency) -/

/-- Split a character list at the first occurrence of `"://"`; returns the
scheme characters and the remainder. -/
def splitScheme : List Char → Option (List Char × List Char)
  | [] => none
  | ':' :: '/' :: '/' :: rest => some ([], rest)
  | x :: xs =>
    match splitScheme xs with
    | some (a, b) => some (x :: a, b)
    | none => none

/-- Split a character list on a separator character. -/
def splitOnCharAux (c : Char) (acc : List Char) : List Char → List (List Char)
  | [] => [acc.reverse]
  | x :: xs =>
    if x == c then acc.reverse :: splitOnCharAux c [] xs
    else splitOnCharAux c (x :: acc) xs

/-- All maximal separator-free segments of a character list. -/
def splitOnChar (c : Char) (l : List Char) : List (List Char) :=
  splitOnCharAux c [] l

/-- One `key=value` query segment as a decoded pair (`key` alone means an
empty value), as `form_urlencoded` yields it. -/
def querySegToPair (seg : List Char) : Pair :=
  let k := seg.takeWhile (fun c => !(c == '='))
  let v := seg.dropWhile (fun c => !(c == '='))
  match v with
  | [] => (⟨k⟩, "")
  | _ :: rest => (⟨k⟩, ⟨rest⟩)

/-- Decoded query pairs of a raw query string; empty `&`-segments are
skipped, as `form_urlencoded::parse` skips them. -/
def parseQueryPairs (q : List Char) : List Pair :=
  ((splitOnChar '&' q).filter (fun seg => !seg.isEmpty)).map querySegToPair

/-- Modelled from the external `url` crate: `Url::parse` restricted to the
absolute `scheme://host[/path][?query]` shape this proxy forwards to.  It
succeeds exactly when the input has a nonempty scheme before `"://"` and a
nonempty host, which is the spec's "absolute URL with scheme and host";
percent-decoding is elided (pairs are kept as written). -/
def parseUrl (s : String) : Option ParsedUrl :=
  match splitScheme s.data with
  | none => none
  | some (scheme, rest) =>
    if scheme.isEmpty then none
    else
      let host := rest.takeWhile (fun c => !(c == '/') && !(c == '?'))
      let after := rest.dropWhile (fun c => !(c == '/') && !(c == '?'))
      if host.isEmpty then none
      else
        let pathPart := after.takeWhile (fun c => !(c == '?'))
        let queryPart := after.dropWhile (fun c => !(c == '?'))
        let path := if pathPart.isEmpty then "/" else (⟨pathPart⟩ : String)
        let query :=
          match queryPart with
          | [] => []
          | _ :: qs => parseQueryPairs qs
        some ⟨⟨scheme⟩, ⟨host⟩, path, query⟩

/-- Join query pairs with `&`, each as `key=value`. -/
def joinPairs : List Pair → String
  | [] => ""
  | [p] => p.1 ++ "=" ++ p.2
  | p :: ps => p.1 ++ "=" ++ p.2 ++ "&" ++ joinPairs ps

/-- Serialization of a parsed URL, as `Url::as_str` produces it after
`set_query`: the `?` appears only when the query pair list is nonempty. -/
def urlToString (u : ParsedUrl) : String :=
  u.scheme ++ "://" ++ u.host ++ u.path ++
    (if u.query.isEmpty then "" else "?" ++ joinPairs u.query)

/-! ### Query filtering and rewriting (`FILTERED_PARAMS`, `do_main` step 1) -/

/-- `FILTERED_PARAMS`: params filtered from the proxied URL (cache-busters
and the routing param). -/
def FILTERED_PARAMS : List String := ["url", "_cb", "_t"]

/-- Drop every pair whose key is in `FILTERED_PARAMS`; the
`filter(|(k, _)| !FILTERED_PARAMS.contains(&k.as_ref()))` passes. -/
def filterPairs (ps : List Pair) : List Pair :=
  ps.filter (fun p => decide (p.1 ∉ FILTERED_PARAMS))

/-- Rebuild the target URL query: the target's own non-filtered pairs, then
the inbound request's non-filtered pairs; when both are empty the query is
the empty list, which `urlToString` serializes with no `?`
(`set_query(None)`). -/
def rewriteQuery (target : ParsedUrl) (inboundQuery : List Pair) : ParsedUrl :=
  { target with query := filterPairs target.query ++ filterPairs inboundQuery }

/-! ### Header handling (`do_main` step 2) -/

/-- Case-insensitive replacing insert; models JS `Headers::set`. -/
def headersSet (hs : List Pair) (name value : String) : List Pair :=
  hs.filter (fun p => !(lowerStr p.1 == lowerStr name)) ++ [(name, value)]

/-- Case-insensitive lookup; models JS `Headers::get`. -/
def headerGet (hs : List Pair) (name : String) : Option String :=
  (hs.find? (fun p => lowerStr p.1 == lowerStr name)).map Prod.snd

/-- Inbound header names never copied to the outbound request. -/
def excludedHeaders : List String :=
  ["host", "cf-connecting-ip", "cf-ipcountry", "cf-ray", "cf-visitor"]

/-- One iteration of the header-copy loop: skip excluded names, rename the
`x-my-x-forwarded-for` override to `X-Forwarded-For` (recording that a
forwarded-for value was supplied), copy everything else as-is. -/
def copyHeaderStep (acc : List Pair × Bool) (p : Pair) : List Pair × Bool :=
  let kl := lowerStr p.1
  if kl ∈ excludedHeaders then acc
  else if kl = "x-my-x-forwarded-for" then
    (headersSet acc.1 "X-Forwarded-For" p.2, true)
  else
    (headersSet acc.1 p.1 p.2, acc.2)

/-- The header-copy pass over all inbound headers: the outbound header list
so far and the `has_forwarded_for` flag. -/
def copyHeaders (inbound : List Pair) : List Pair × Bool :=
  inbound.foldl copyHeaderStep ([], false)

/-- Full request-header preparation: the copy pass, then the synthetic
`X-Forwarded-For` (the `randomIp` argument stands for the value
`generate_random_ip()` returns for this request) exactly when
`has_forwarded_for` is still false. -/
def prepareHeaders (inbound : List Pair) (randomIp : String) : List Pair :=
  let st := copyHeaders inbound
  if st.2 then st.1 else headersSet st.1 "X-Forwarded-For" randomIp

/-! ### Target resolution (`do_main` step 1) -/

/-- Target-URL resolution: first query pair with key `url` (case-sensitive,
loop breaks at the first hit), else the `X-Target-URL` header
(case-insensitive `Headers::get`), else the path stripped of leading
slashes when it differs from `/` and starts with `http`. -/
def resolveTarget (req : InboundRequest) : Option String :=
  match (req.query.find? (fun p => p.1 == "url")).map Prod.snd with
  | some v => some v
  | none =>
    match headerGet req.headers "X-Target-URL" with
    | some v => some v
    | none =>
      if req.path ≠ "/" then
        let p := stripLeadingSlashes req.path
        if startsWithStr p "http" then some p else none
      else none

/-! ### Synthetic client identity (`generate_random_ip`) -/

/-- One step of the Knuth MMIX linear congruential generator on a 64-bit
seed (`wrapping_mul` / `wrapping_add`). -/
def lcgNext (seed : Nat) : Nat :=
  (seed * 6364136223846793005 + 1442695040888963407) % 2 ^ 64

/-- The byte the generator extracts: bits 32..39 of the seed. -/
def lcgByte (seed : Nat) : Nat :=
  (seed / 2 ^ 32) % 256

/-- Character of a decimal digit. -/
def digitChar (n : Nat) : Char := Char.ofNat (48 + n)

/-- Decimal string of a `u8` value, as `format!` renders it. -/
def natToStr (n : Nat) : String :=
  if n < 10 then ⟨[digitChar n]⟩
  else if n < 100 then ⟨[digitChar (n / 10), digitChar (n % 10)]⟩
  else ⟨[digitChar (n / 100), digitChar (n / 10 % 10), digitChar (n % 10)]⟩

/-- `generate_random_ip`, as a function of the millisecond timestamp
`Date::now().as_millis()` that seeds it: four LCG bytes joined with dots,
with the first byte replaced by 1 when it is 0. -/
def generate_random_ip (now : Nat) : String :=
  let s1 := lcgNext (now % 2 ^ 64)
  let b1 := lcgByte s1
  let o1 := if b1 = 0 then 1 else b1
  let s2 := lcgNext s1
  let s3 := lcgNext s2
  let s4 := lcgNext s3
  natToStr o1 ++ "." ++ natToStr (lcgByte s2) ++ "." ++
    natToStr (lcgByte s3) ++ "." ++ natToStr (lcgByte s4)

/-- Parse a nonempty all-digit character list as a decimal number. -/
def parseDecAux : Nat → List Char → Option Nat
  | acc, [] => some acc
  | acc, c :: cs =>
    if 48 ≤ c.toNat ∧ c.toNat ≤ 57 then parseDecAux (acc * 10 + (c.toNat - 48)) cs
    else none

/-- Parse a string as a decimal integer, as `str::parse::<u8>` accepts its
digits (empty or non-digit input fails). -/
def parseDec (s : String) : Option Nat :=
  match s.data with
  | [] => none
  | l => parseDecAux 0 l

/-- The dot-separated components of a string (`str::split('.')`). -/
def dotSplit (s : String) : List String :=
  (splitOnChar '.' s.data).map (fun l => (⟨l⟩ : String))

/-! ### The request pipeline (`do_main`) -/

/-- The three CORS headers, as set on both the preflight response and every
relayed response. -/
def corsHeaders (hs : List Pair) : List Pair :=
  headersSet
    (headersSet (headersSet hs "Access-Control-Allow-Origin" "*")
      "Access-Control-Allow-Methods" "GET, POST, PUT, DELETE, OPTIONS, PATCH, HEAD")
    "Access-Control-Allow-Headers" "*"

/-- The pure part of `do_main`, up to the outbound `Fetch`: preflight
short-circuit, target resolution, URL validation, query rewriting and
header preparation.  `randomIp` stands for the value `generate_random_ip()`
returns during this invocation. -/
def do_main (req : InboundRequest) (randomIp : String) : ProxyOutcome :=
  if req.method = "OPTIONS" then
    .respond 204 "" (corsHeaders [])
  else
    match resolveTarget req with
    | none => .respond 400 "Missing target URL" []
    | some s =>
      match parseUrl s with
      | none => .respond 400 "Invalid target URL" []
      | some target =>
        .forward ⟨rewriteQuery target req.query, prepareHeaders req.headers randomIp, req.method⟩

/-! ### Response relay (`do_main` steps 5 and 6) -/

/-- Upstream response header names dropped before relaying. -/
def strippedResponseHeaders : List String :=
  ["content-encoding", "content-length", "transfer-encoding"]

/-- One iteration of the response-header loop: copy unless stripped. -/
def respHeaderStep (acc : List Pair) (p : Pair) : List Pair :=
  if lowerStr p.1 ∈ strippedResponseHeaders then acc
  else headersSet acc p.1 p.2

/-- Relayed response headers: the upstream headers minus the stripped set,
then the three CORS headers set unconditionally. -/
def processResponseHeaders (upstream : List Pair) : List Pair :=
  corsHeaders (upstream.foldl respHeaderStep [])

/-- The relayed response: upstream status code preserved, headers rebuilt by
`processResponseHeaders`. -/
def relayResponse (status : Nat) (upstreamHeaders : List Pair) : Nat × List Pair :=
  (status, processResponseHeaders upstreamHeaders)

/-! ### Helper lemmas -/

/-- Membership in `headersSet`: an element is the new pair or an old pair
whose lowercase name differs from the written name. -/
theorem mem_headersSet {hs : List Pair} {n v : String} {r : Pair} :
    r ∈ headersSet hs n v ↔ (r ∈ hs ∧ lowerStr r.1 ≠ lowerStr n) ∨ r = (n, v) := by
  simp [headersSet, List.mem_append, List.mem_filter]

/-- Filtering out one lowercase name does not change lookups of another. -/
theorem headerGet_filter_ne (hs : List Pair) (n k : String)
    (h : lowerStr k ≠ lowerStr n) :
    headerGet (hs.filter (fun p => !(lowerStr p.1 == lowerStr n))) k = headerGet hs k := by
  induction hs with
  | nil => rfl
  | cons p hs ih =>
    by_cases hpn : lowerStr p.1 = lowerStr n
    · have hpk : (lowerStr p.1 == lowerStr k) = false := by
        simp only [beq_eq_false_iff_ne, ne_eq, hpn]
        exact fun e => h e.symm
      simp only [List.filter, show ((lowerStr p.1 == lowerStr n) : Bool) = true by simpa using hpn,
        Bool.not_true]
      rw [ih]
      unfold headerGet
      rw [List.find?_cons_of_neg _ (by simp [hpk])]
    · by_cases hpk : lowerStr p.1 = lowerStr k
      · simp only [List.filter, show ((lowerStr p.1 == lowerStr n) : Bool) = false by simpa using hpn,
          Bool.not_false]
        unfold headerGet
        rw [List.find?_cons_of_pos _ (by simpa using hpk),
          List.find?_cons_of_pos _ (by simpa using hpk)]
      · simp only [List.filter, show ((lowerStr p.1 == lowerStr n) : Bool) = false by simpa using hpn,
          Bool.not_false]
        unfold headerGet at ih ⊢
        rw [List.find?_cons_of_neg _ (by simpa using hpk),
          List.find?_cons_of_neg _ (by simpa using hpk), ih]

/-- Lookup after `headersSet`: the written name reads back the new value,
any other name is unaffected. -/
theorem headerGet_headersSet (hs : List Pair) (n v k : String) :
    headerGet (headersSet hs n v) k =
      if lowerStr k = lowerStr n then some v else headerGet hs k := by
  by_cases h : lowerStr k = lowerStr n
  · rw [if_pos h]
    unfold headersSet headerGet
    rw [List.find?_append]
    have hnone : (hs.filter (fun p => !(lowerStr p.1 == lowerStr n))).find?
        (fun p => lowerStr p.1 == lowerStr k) = none := by
      rw [List.find?_eq_none]
      intro x hx
      have hmem := List.mem_filter.mp hx
      simp only [Bool.not_eq_true', beq_eq_false_iff_ne, ne_eq] at hmem
      simp [h, hmem.2]
    rw [hnone]
    simp [List.find?, show ((lowerStr n == lowerStr k) : Bool) = true by simpa using h.symm]
  · rw [if_neg h]
    unfold headersSet headerGet
    rw [List.find?_append]
    have hlast : ([(n, v)] : List Pair).find? (fun p => lowerStr p.1 == lowerStr k) = none := by
      simp [List.find?, show ((lowerStr n == lowerStr k) : Bool) = false by
        simpa using fun e => h e.symm]
    rw [hlast, Option.or_none]
    have hfn := headerGet_filter_ne hs n k h
    unfold headerGet at hfn
    rw [hfn]

/-- The lowercase name that processing one inbound header writes into the
outbound header list, if any. -/
def writesName (q : Pair) : Option String :=
  let kl := lowerStr q.1
  if kl ∈ excludedHeaders then none
  else if kl = "x-my-x-forwarded-for" then some "x-forwarded-for"
  else some kl

/-- No excluded header name is the override name. -/
theorem excluded_ne_override {s : String} (h : s ∈ excludedHeaders) :
    s ≠ "x-my-x-forwarded-for" := by
  simp only [excludedHeaders, List.mem_cons, List.not_mem_nil, or_false] at h
  rcases h with h | h | h | h | h <;> (rw [h]; decide)

/-- The `has_forwarded_for` flag after the copy loop is set exactly when the
flag was set before or some processed header is the override. -/
theorem copyHeaders_snd (l : List Pair) (acc : List Pair × Bool) :
    (l.foldl copyHeaderStep acc).2 =
      (acc.2 || l.any (fun p => lowerStr p.1 == "x-my-x-forwarded-for")) := by
  induction l generalizing acc with
  | nil => simp
  | cons p l ih =>
    rw [List.foldl_cons, ih, List.any_cons]
    by_cases hex : lowerStr p.1 ∈ excludedHeaders
    · have hno : ¬ lowerStr p.1 = "x-my-x-forwarded-for" := excluded_ne_override hex
      simp [copyHeaderStep, hex, hno,
        show (lowerStr p.1 == "x-my-x-forwarded-for") = false by simpa using hno]
    · by_cases hov : lowerStr p.1 = "x-my-x-forwarded-for"
      · simp [copyHeaderStep, hex, hov,
          show ("x-my-x-forwarded-for" : String) ∉ excludedHeaders from by decide]
      · simp [copyHeaderStep, hex, hov,
          show (lowerStr p.1 == "x-my-x-forwarded-for") = false by simpa using hov]

/-- A pair already in the accumulator survives the rest of the copy loop as
long as no later header writes its lowercase name. -/
theorem copyHeaders_survive (l : List Pair) (acc : List Pair × Bool) (r : Pair)
    (hr : r ∈ acc.1) (hl : ∀ q ∈ l, writesName q ≠ some (lowerStr r.1)) :
    r ∈ (l.foldl copyHeaderStep acc).1 := by
  induction l generalizing acc with
  | nil => simpa using hr
  | cons p l ih =>
    rw [List.foldl_cons]
    refine ih _ ?_ (fun q hq => hl q (List.mem_cons_of_mem _ hq))
    have hp := hl p (List.mem_cons_self _ _)
    by_cases hex : lowerStr p.1 ∈ excludedHeaders
    · simpa [copyHeaderStep, hex] using hr
    · by_cases hov : lowerStr p.1 = "x-my-x-forwarded-for"
      · have hne : lowerStr r.1 ≠ lowerStr "X-Forwarded-For" := by
          intro e
          apply hp
          rw [writesName]
          simp only [hex, if_false, hov, if_pos rfl]
          rw [e]
          decide
        simp only [copyHeaderStep, hex, if_false, hov, if_pos rfl]
        exact mem_headersSet.mpr (Or.inl ⟨hr, hne⟩)
      · have hne : lowerStr r.1 ≠ lowerStr p.1 := by
          intro e
          apply hp
          rw [writesName]
          simp [hex, hov, e]
        simp only [copyHeaderStep, hex, if_false, hov]
        exact mem_headersSet.mpr (Or.inl ⟨hr, hne⟩)

/-- Every name the copy loop writes is outside the excluded set, so no
excluded header ever appears in its output. -/
theorem copyHeaders_no_excluded (l : List Pair) (acc : List Pair × Bool)
    (hacc : ∀ r ∈ acc.1, lowerStr r.1 ∉ excludedHeaders) :
    ∀ r ∈ (l.foldl copyHeaderStep acc).1, lowerStr r.1 ∉ excludedHeaders := by
  induction l generalizing acc with
  | nil => simpa using hacc
  | cons p l ih =>
    rw [List.foldl_cons]
    refine ih _ ?_
    intro r hr
    by_cases hex : lowerStr p.1 ∈ excludedHeaders
    · exact hacc r (by simpa [copyHeaderStep, hex] using hr)
    · by_cases hov : lowerStr p.1 = "x-my-x-forwarded-for"
      · simp only [copyHeaderStep, hex, if_false, hov, if_pos rfl] at hr
        rcases mem_headersSet.mp hr with ⟨hmem, _⟩ | heq
        · exact hacc r hmem
        · rw [heq]
          have hx : lowerStr "X-Forwarded-For" ∉ excludedHeaders := by decide
          simpa using hx
      · simp only [copyHeaderStep, hex, if_false, hov] at hr
        rcases mem_headersSet.mp hr with ⟨hmem, _⟩ | heq
        · exact hacc r hmem
        · rw [heq]
          simpa using hex

/-- A pair already copied survives the rest of the response-header loop as
long as no later upstream header carries its lowercase name. -/
theorem respHeaders_survive (l : List Pair) (acc : List Pair) (r : Pair)
    (hr : r ∈ acc) (hl : ∀ q ∈ l, lowerStr q.1 ≠ lowerStr r.1) :
    r ∈ l.foldl respHeaderStep acc := by
  induction l generalizing acc with
  | nil => simpa using hr
  | cons p l ih =>
    rw [List.foldl_cons]
    refine ih _ ?_ (fun q hq => hl q (List.mem_cons_of_mem _ hq))
    have hp := hl p (List.mem_cons_self _ _)
    by_cases hst : lowerStr p.1 ∈ strippedResponseHeaders
    · simpa [respHeaderStep, hst] using hr
    · simp only [respHeaderStep, hst, if_false]
      exact mem_headersSet.mpr (Or.inl ⟨hr, fun e => hp e.symm⟩)

/-- Every pair in the response-copy output is an upstream pair outside the
stripped set or was there to begin with. -/
theorem respHeaders_shape (l : List Pair) (acc : List Pair) :
    ∀ r ∈ l.foldl respHeaderStep acc,
      r ∈ acc ∨ (r ∈ l ∧ lowerStr r.1 ∉ strippedResponseHeaders) := by
  induction l generalizing acc with
  | nil => simp
  | cons p l ih =>
    intro r hr
    rw [List.foldl_cons] at hr
    by_cases hst : lowerStr p.1 ∈ strippedResponseHeaders
    · simp only [respHeaderStep, hst, if_pos] at hr
      rcases ih acc r hr with h | ⟨h1, h2⟩
      · exact Or.inl h
      · exact Or.inr ⟨List.mem_cons_of_mem _ h1, h2⟩
    · simp only [respHeaderStep, hst, if_false] at hr
      rcases ih _ r hr with h | ⟨h1, h2⟩
      · rcases mem_headersSet.mp h with ⟨h3, _⟩ | h3
        · exact Or.inl h3
        · refine Or.inr ⟨?_, ?_⟩
          · rw [h3]
            simp
          · rw [h3]
            simpa using hst
      · exact Or.inr ⟨List.mem_cons_of_mem _ h1, h2⟩

/-- Lookup through the three unconditional CORS writes. -/
theorem headerGet_corsHeaders (hs : List Pair) (k : String) :
    headerGet (corsHeaders hs) k =
      if lowerStr k = "access-control-allow-headers" then some "*"
      else if lowerStr k = "access-control-allow-methods" then
        some "GET, POST, PUT, DELETE, OPTIONS, PATCH, HEAD"
      else if lowerStr k = "access-control-allow-origin" then some "*"
      else headerGet hs k := by
  unfold corsHeaders
  rw [headerGet_headersSet, headerGet_headersSet, headerGet_headersSet]
  have h1 : lowerStr "Access-Control-Allow-Headers" = "access-control-allow-headers" := by decide
  have h2 : lowerStr "Access-Control-Allow-Methods" = "access-control-allow-methods" := by decide
  have h3 : lowerStr "Access-Control-Allow-Origin" = "access-control-allow-origin" := by decide
  rw [h1, h2, h3]

/-- Membership through the three unconditional CORS writes. -/
theorem mem_corsHeaders (hs : List Pair) (r : Pair)
    (hr : r ∈ hs)
    (h1 : lowerStr r.1 ≠ "access-control-allow-origin")
    (h2 : lowerStr r.1 ≠ "access-control-allow-methods")
    (h3 : lowerStr r.1 ≠ "access-control-allow-headers") :
    r ∈ corsHeaders hs := by
  unfold corsHeaders
  refine mem_headersSet.mpr (Or.inl ⟨mem_headersSet.mpr (Or.inl ⟨mem_headersSet.mpr
    (Or.inl ⟨hr, ?_⟩), ?_⟩), ?_⟩)
  · simpa [show lowerStr "Access-Control-Allow-Origin" = "access-control-allow-origin" by decide]
      using h1
  · simpa [show lowerStr "Access-Control-Allow-Methods" = "access-control-allow-methods" by decide]
      using h2
  · simpa [show lowerStr "Access-Control-Allow-Headers" = "access-control-allow-headers" by decide]
      using h3

/-- Every pair the CORS pass adds or keeps: either one of the three CORS
pairs or a pair of the underlying list. -/
theorem mem_of_mem_corsHeaders (hs : List Pair) (r : Pair) (hr : r ∈ corsHeaders hs) :
    r ∈ hs ∨ r = ("Access-Control-Allow-Origin", "*") ∨
      r = ("Access-Control-Allow-Methods", "GET, POST, PUT, DELETE, OPTIONS, PATCH, HEAD") ∨
      r = ("Access-Control-Allow-Headers", "*") := by
  unfold corsHeaders at hr
  rcases mem_headersSet.mp hr with ⟨hr2, _⟩ | h
  · rcases mem_headersSet.mp hr2 with ⟨hr3, _⟩ | h
    · rcases mem_headersSet.mp hr3 with ⟨hr4, _⟩ | h
      · exact Or.inl hr4
      · exact Or.inr (Or.inl h)
    · exact Or.inr (Or.inr (Or.inl h))
  · exact Or.inr (Or.inr (Or.inr h))

/-- Inversion of `do_main` on a forwarded outcome: the method was not
`OPTIONS`, a target string resolved, it parsed, and the outbound request is
the rewritten URL with the prepared headers and original method. -/
theorem do_main_forward_inv (req : InboundRequest) (rip : String) (out : OutboundRequest)
    (h : do_main req rip = ProxyOutcome.forward out) :
    req.method ≠ "OPTIONS" ∧
      ∃ s target, resolveTarget req = some s ∧ parseUrl s = some target ∧
        out = ⟨rewriteQuery target req.query, prepareHeaders req.headers rip, req.method⟩ := by
  by_cases hm : req.method = "OPTIONS"
  · rw [do_main, if_pos hm] at h
    exact absurd h (by simp)
  · rw [do_main, if_neg hm] at h
    refine ⟨hm, ?_⟩
    split at h
    · exact absurd h (by simp)
    · rename_i s hr
      split at h
      · exact absurd h (by simp)
      · rename_i target hp
        simp only [ProxyOutcome.forward.injEq] at h
        exact ⟨s, target, hr, hp, h.symm⟩

/-- A `url` query pair placed after url-free pairs is the one the
resolution loop finds. -/
theorem find_url_first (l1 l2 : List Pair) (v : String)
    (h1 : ∀ q ∈ l1, q.1 ≠ "url") :
    ((l1 ++ ("url", v) :: l2).find? (fun p => p.1 == "url")).map Prod.snd = some v := by
  induction l1 with
  | nil => simp [List.find?]
  | cons q l1 ih =>
    rw [List.cons_append, List.find?_cons_of_neg _ (by
      simpa using h1 q (List.mem_cons_self _ _))]
    exact ih (fun q hq => h1 q (List.mem_cons_of_mem _ hq))

/-- With no `url` query pair the resolution loop finds nothing. -/
theorem find_url_none (l : List Pair) (h : ∀ q ∈ l, q.1 ≠ "url") :
    (l.find? (fun p => p.1 == "url")).map Prod.snd = none := by
  rw [List.find?_eq_none.mpr (fun x hx => by simpa using h x hx)]
  rfl

/-- Membership in `filterPairs`: kept exactly when present and not filtered. -/
theorem mem_filterPairs {ps : List Pair} {p : Pair} :
    p ∈ filterPairs ps ↔ p ∈ ps ∧ p.1 ∉ FILTERED_PARAMS := by
  simp [filterPairs, List.mem_filter]

/-! ### Claims -/

/-- C1: for every non-OPTIONS inbound request the target URL is resolved by
trying three sources in order with first match winning: the first query
pair named `url` (case-sensitive, original order), else the `X-Target-URL`
header (case-insensitive), else the path stripped of its leading slashes,
used only when the path is not `/` and the stripped remainder starts with
`http`. -/
theorem c1_target_resolution (req : InboundRequest) :
    (∀ v l1 l2, req.query = l1 ++ ("url", v) :: l2 → (∀ q ∈ l1, q.1 ≠ "url") →
      resolveTarget req = some v) ∧
    ((∀ q ∈ req.query, q.1 ≠ "url") →
      ∀ v, headerGet req.headers "X-Target-URL" = some v → resolveTarget req = some v) ∧
    ((∀ q ∈ req.query, q.1 ≠ "url") → headerGet req.headers "X-Target-URL" = none →
      resolveTarget req =
        if req.path ≠ "/" ∧ startsWithStr (stripLeadingSlashes req.path) "http" = true then
          some (stripLeadingSlashes req.path)
        else none) := by
  refine ⟨?_, ?_, ?_⟩
  · intro v l1 l2 hq h1
    unfold resolveTarget
    rw [hq, find_url_first l1 l2 v h1]
  · intro hq v hh
    unfold resolveTarget
    rw [find_url_none _ hq, hh]
  · intro hq hh
    unfold resolveTarget
    rw [find_url_none _ hq, hh]
    by_cases hp : req.path = "/"
    · simp [hp]
    · by_cases hsw : startsWithStr (stripLeadingSlashes req.path) "http" = true
      · simp [hp, hsw]
      · simp only [Bool.not_eq_true] at hsw
        simp [hp, hsw]

/-- Witness for C1 at a concrete request: a `URL`-keyed pair (wrong case)
and an `a` pair precede the matching `url` pair. -/
theorem c1_witness :
    resolveTarget ⟨"GET", "/", [("URL", "zz"), ("a", "1"), ("url", "https://t.example/x")], []⟩ =
      some "https://t.example/x" :=
  (c1_target_resolution _).1 "https://t.example/x" [("URL", "zz"), ("a", "1")] [] rfl (by decide)

/-- C2: for every non-OPTIONS request, a missing target yields HTTP 400
"Missing target URL", an unparseable target yields HTTP 400 "Invalid target
URL", and in both cases the outcome is never a forwarded (fetched)
request. -/
theorem c2_error_responses (req : InboundRequest) (rip : String)
    (hm : req.method ≠ "OPTIONS") :
    (resolveTarget req = none →
      do_main req rip = ProxyOutcome.respond 400 "Missing target URL" [] ∧
      ∀ out, do_main req rip ≠ ProxyOutcome.forward out) ∧
    (∀ s, resolveTarget req = some s → parseUrl s = none →
      do_main req rip = ProxyOutcome.respond 400 "Invalid target URL" [] ∧
      ∀ out, do_main req rip ≠ ProxyOutcome.forward out) := by
  constructor
  · intro hr
    have h : do_main req rip = ProxyOutcome.respond 400 "Missing target URL" [] := by
      unfold do_main
      rw [if_neg hm, hr]
    exact ⟨h, fun out hc => by rw [h] at hc; exact absurd hc (by simp)⟩
  · intro s hr hp
    have h : do_main req rip = ProxyOutcome.respond 400 "Invalid target URL" [] := by
      unfold do_main
      rw [if_neg hm, hr]
      simp [hp]
    exact ⟨h, fun out hc => by rw [h] at hc; exact absurd hc (by simp)⟩

/-- Witness for C2: a request with no target source at all, and one whose
`url` parameter does not parse as an absolute URL. -/
theorem c2_witness :
    do_main ⟨"GET", "/", [], []⟩ "9.9.9.9" =
      ProxyOutcome.respond 400 "Missing target URL" [] ∧
    do_main ⟨"GET", "/", [("url", "not-a-url")], []⟩ "9.9.9.9" =
      ProxyOutcome.respond 400 "Invalid target URL" [] :=
  ⟨((c2_error_responses ⟨"GET", "/", [], []⟩ "9.9.9.9" (by decide)).1 (by decide)).1,
   ((c2_error_responses ⟨"GET", "/", [("url", "not-a-url")], []⟩ "9.9.9.9"
      (by decide)).2 "not-a-url" (by decide) (by decide)).1⟩

/-- C10: path-based resolution strips all leading slashes, so
`//https://example.com` still resolves when neither the `url` parameter nor
the `X-Target-URL` header is present. -/
theorem c10_multi_slash (req : InboundRequest)
    (hq : ∀ q ∈ req.query, q.1 ≠ "url")
    (hh : headerGet req.headers "X-Target-URL" = none)
    (hp : req.path = "//https://example.com") :
    resolveTarget req = some "https://example.com" := by
  unfold resolveTarget
  rw [find_url_none _ hq, hh, hp]
  decide

/-- Witness for C10 at a concrete double-slash request. -/
theorem c10_witness :
    resolveTarget ⟨"GET", "//https://example.com", [], []⟩ = some "https://example.com" :=
  c10_multi_slash _ (by decide) rfl rfl

/-- C3: on every forwarded request no outbound query pair has a key in
`FILTERED_PARAMS`, whichever source it came from, and every non-filtered
pair of either source is kept. -/
theorem c3_filtered_params (req : InboundRequest) (rip : String) (out : OutboundRequest)
    (h : do_main req rip = ProxyOutcome.forward out) :
    (∀ p ∈ out.url.query, p.1 ∉ FILTERED_PARAMS) ∧
    (∀ p ∈ req.query, p.1 ∉ FILTERED_PARAMS → p ∈ out.url.query) ∧
    (∀ s target, resolveTarget req = some s → parseUrl s = some target →
      ∀ p ∈ target.query, p.1 ∉ FILTERED_PARAMS → p ∈ out.url.query) := by
  obtain ⟨-, s, target, hs, ht, hout⟩ := do_main_forward_inv req rip out h
  have hq : out.url.query = filterPairs target.query ++ filterPairs req.query := by
    rw [hout]
    rfl
  refine ⟨?_, ?_, ?_⟩
  · intro p hp
    rw [hq] at hp
    rcases List.mem_append.mp hp with h1 | h1 <;> exact (mem_filterPairs.mp h1).2
  · intro p hp hnf
    rw [hq]
    exact List.mem_append.mpr (Or.inr (mem_filterPairs.mpr ⟨hp, hnf⟩))
  · intro s2 t2 hs2 ht2 p hp hnf
    have hse : s2 = s := Option.some.inj (hs2.symm.trans hs)
    subst hse
    have hte : t2 = target := Option.some.inj (ht2.symm.trans ht)
    subst hte
    rw [hq]
    exact List.mem_append.mpr (Or.inl (mem_filterPairs.mpr ⟨hp, hnf⟩))

/-- Witness for C3: the `page` pair survives while `url` and `_cb` are
dropped. -/
theorem c3_witness :
    ("page", "2") ∈
      (OutboundRequest.mk ⟨"https", "api.example.com", "/data", [("page", "2")]⟩
        [("X-Forwarded-For", "7.7.7.7")] "GET").url.query :=
  (c3_filtered_params
    ⟨"GET", "/", [("url", "https://api.example.com/data"), ("_cb", "123"), ("page", "2")], []⟩
    "7.7.7.7" _ (by decide)).2.1 ("page", "2") (by decide) (by decide)

/-- C4: the outbound query is the target URL's filtered pairs followed by
the inbound request's filtered pairs, in source order with duplicates kept,
and an empty combined list serializes with no `?` at all. -/
theorem c4_query_concat (req : InboundRequest) (rip : String) (out : OutboundRequest)
    (s : String) (target : ParsedUrl)
    (h : do_main req rip = ProxyOutcome.forward out)
    (hs : resolveTarget req = some s) (ht : parseUrl s = some target) :
    out.url.query = filterPairs target.query ++ filterPairs req.query ∧
    (out.url.query = [] →
      urlToString out.url = out.url.scheme ++ "://" ++ out.url.host ++ out.url.path) := by
  obtain ⟨-, s2, t2, hs2, ht2, hout⟩ := do_main_forward_inv req rip out h
  have hse : s2 = s := Option.some.inj (hs2.symm.trans hs)
  subst hse
  have hte : t2 = target := Option.some.inj (ht2.symm.trans ht)
  subst hte
  constructor
  · rw [hout]
    rfl
  · intro hempty
    unfold urlToString
    rw [hempty]
    simp

/-- Witness for C4 at the same concrete request as C3. -/
theorem c4_witness :
    (OutboundRequest.mk ⟨"https", "api.example.com", "/data", [("page", "2")]⟩
        [("X-Forwarded-For", "7.7.7.7")] "GET").url.query =
      filterPairs ([] : List Pair) ++
        filterPairs [("url", "https://api.example.com/data"), ("_cb", "123"), ("page", "2")] :=
  (c4_query_concat
    ⟨"GET", "/", [("url", "https://api.example.com/data"), ("_cb", "123"), ("page", "2")], []⟩
    "7.7.7.7" _ "https://api.example.com/data" ⟨"https", "api.example.com", "/data", []⟩
    (by decide) (by decide) (by decide)).1

/-- C5 as stated is false on the code: with an inbound `X-Forwarded-For`
header (and no override), an `X-Forwarded-For` header does exist on the
outbound request after the copy pass, yet the `has_forwarded_for` flag is
still false, so a synthetic value is generated and overwrites the copied
one. -/
theorem c5_counterexample :
    ¬ (((copyHeaders [("X-Forwarded-For", "1.2.3.4")]).2 = false) ↔
        headerGet (copyHeaders [("X-Forwarded-For", "1.2.3.4")]).1 "X-Forwarded-For" = none) ∧
    headerGet (prepareHeaders [("X-Forwarded-For", "1.2.3.4")] "5.5.5.5") "X-Forwarded-For" =
      some "5.5.5.5" := by
  decide

/-- C5 amended: the synthetic forwarded-for value is generated and set if
and only if no inbound header is (case-insensitively) `x-my-x-forwarded-for`
— even when an inbound `X-Forwarded-For` header was already copied to the
outbound request; the particular `x-my-x-forwarded-for: 9.9.9.9` behavior
holds as claimed. -/
theorem c5_amended_synthetic (inbound : List Pair) (rip : String) :
    ((copyHeaders inbound).2 =
      inbound.any (fun p => lowerStr p.1 == "x-my-x-forwarded-for")) ∧
    (inbound.any (fun p => lowerStr p.1 == "x-my-x-forwarded-for") = false →
      headerGet (prepareHeaders inbound rip) "X-Forwarded-For" = some rip) ∧
    headerGet (prepareHeaders [("x-my-x-forwarded-for", "9.9.9.9")] rip) "X-Forwarded-For" =
      some "9.9.9.9" := by
  have hsnd := copyHeaders_snd inbound ([], false)
  simp only [Bool.false_or] at hsnd
  refine ⟨hsnd, ?_, ?_⟩
  · intro hany
    have h2 : (copyHeaders inbound).2 = false := by rw [copyHeaders] at *; rw [hsnd, hany]
    unfold prepareHeaders
    rw [if_neg (by simp [h2])]
    rw [headerGet_headersSet]
    simp
  · rfl

/-- Witness for C5 (amended): a request with no override header gets the
synthetic value. -/
theorem c5_witness :
    headerGet (prepareHeaders [("Accept", "anything")] "8.8.4.4") "X-Forwarded-For" =
      some "8.8.4.4" :=
  (c5_amended_synthetic [("Accept", "anything")] "8.8.4.4").2.1 (by decide)

/-- C6 as stated is false on the code: an inbound `X-Forwarded-For` header
is neither excluded nor the override, yet it is absent from the copy-pass
output when an `x-my-x-forwarded-for` header follows it, because the
override's `Headers::set` replaces it. -/
theorem c6_counterexample :
    lowerStr "X-Forwarded-For" ∉ excludedHeaders ∧
    lowerStr "X-Forwarded-For" ≠ "x-my-x-forwarded-for" ∧
    ("X-Forwarded-For", "1.1.1.1") ∉
      (copyHeaders [("X-Forwarded-For", "1.1.1.1"), ("x-my-x-forwarded-for", "2.2.2.2")]).1 := by
  decide

/-- C6 amended: excluded inbound headers never reach the outbound request,
and every other inbound header apart from the override is passed through
with its name and value unmodified — except that an inbound
`x-forwarded-for` header is replaced when an `x-my-x-forwarded-for`
override occurs later in iteration order.  Inbound header names are
pairwise distinct modulo case, as iteration of the runtime `Headers`
multimap yields each name once. -/
theorem c6_amended_header_copy (l1 l2 : List Pair) (p : Pair)
    (hnodup : ((l1 ++ p :: l2).map (fun q => lowerStr q.1)).Nodup)
    (hex : lowerStr p.1 ∉ excludedHeaders)
    (hov : lowerStr p.1 ≠ "x-my-x-forwarded-for")
    (hxff : lowerStr p.1 = "x-forwarded-for" →
      ∀ q ∈ l2, lowerStr q.1 ≠ "x-my-x-forwarded-for") :
    p ∈ (copyHeaders (l1 ++ p :: l2)).1 ∧
    ∀ r ∈ (copyHeaders (l1 ++ p :: l2)).1, lowerStr r.1 ∉ excludedHeaders := by
  constructor
  · rw [copyHeaders, List.foldl_append, List.foldl_cons]
    refine copyHeaders_survive l2 _ p ?_ ?_
    · simp only [copyHeaderStep, hex, if_false, hov]
      exact mem_headersSet.mpr (Or.inr (Prod.mk.eta).symm)
    · intro q hq e
      have hpl2 : lowerStr p.1 ∉ l2.map (fun q => lowerStr q.1) := by
        have hsub : ((fun q => lowerStr q.1) p :: l2.map (fun q => lowerStr q.1)).Sublist
            ((l1 ++ p :: l2).map (fun q => lowerStr q.1)) := by
          rw [List.map_append, List.map_cons]
          exact List.sublist_append_right _ _
        have hnd2 := hnodup.sublist hsub
        exact (List.nodup_cons.mp hnd2).1
      unfold writesName at e
      by_cases hqex : lowerStr q.1 ∈ excludedHeaders
      · rw [if_pos hqex] at e
        exact absurd e (by simp)
      · rw [if_neg hqex] at e
        by_cases hqov : lowerStr q.1 = "x-my-x-forwarded-for"
        · rw [if_pos hqov] at e
          have hpx : lowerStr p.1 = "x-forwarded-for" := (Option.some.inj e).symm
          exact hxff hpx q hq hqov
        · rw [if_neg hqov] at e
          have : lowerStr q.1 = lowerStr p.1 := Option.some.inj e
          exact hpl2 (this ▸ List.mem_map_of_mem _ hq)
  · exact copyHeaders_no_excluded _ _ (by simp)

/-- Witness for C6 (amended): an `Authorization` header passes through
unmodified. -/
theorem c6_witness :
    ("Authorization", "token123") ∈
      (copyHeaders [("Authorization", "token123"), ("Accept", "anything")]).1 :=
  (c6_amended_header_copy [] [("Accept", "anything")] ("Authorization", "token123")
    (by decide) (by decide) (by decide) (by decide)).1

/-- C7: the relayed response drops `content-encoding`, `content-length` and
`transfer-encoding`, copies every other upstream header verbatim (the three
CORS names being overwritten by the unconditional CORS pass), sets the
three CORS headers, and preserves the upstream status code.  Upstream
header names are pairwise distinct modulo case, as iteration of the
runtime `Headers` multimap yields each name once. -/
theorem c7_response_relay (status : Nat) (upstream : List Pair)
    (hnodup : (upstream.map (fun p => lowerStr p.1)).Nodup) :
    (relayResponse status upstream).1 = status ∧
    headerGet (relayResponse status upstream).2 "Access-Control-Allow-Origin" = some "*" ∧
    headerGet (relayResponse status upstream).2 "Access-Control-Allow-Methods" =
      some "GET, POST, PUT, DELETE, OPTIONS, PATCH, HEAD" ∧
    headerGet (relayResponse status upstream).2 "Access-Control-Allow-Headers" = some "*" ∧
    (∀ r ∈ (relayResponse status upstream).2, lowerStr r.1 ∉ strippedResponseHeaders) ∧
    (∀ r ∈ upstream, lowerStr r.1 ∉ strippedResponseHeaders →
      lowerStr r.1 ≠ "access-control-allow-origin" →
      lowerStr r.1 ≠ "access-control-allow-methods" →
      lowerStr r.1 ≠ "access-control-allow-headers" →
      r ∈ (relayResponse status upstream).2) := by
  refine ⟨rfl, ?_, ?_, ?_, ?_, ?_⟩
  · rw [show (relayResponse status upstream).2 = processResponseHeaders upstream from rfl,
      processResponseHeaders, headerGet_corsHeaders,
      if_neg (by decide), if_neg (by decide), if_pos (by decide)]
  · rw [show (relayResponse status upstream).2 = processResponseHeaders upstream from rfl,
      processResponseHeaders, headerGet_corsHeaders,
      if_neg (by decide), if_pos (by decide)]
  · rw [show (relayResponse status upstream).2 = processResponseHeaders upstream from rfl,
      processResponseHeaders, headerGet_corsHeaders, if_pos (by decide)]
  · intro r hr
    rcases mem_of_mem_corsHeaders _ r hr with h | h | h | h
    · rcases respHeaders_shape upstream [] r h with h2 | ⟨_, h2⟩
      · exact absurd h2 (List.not_mem_nil r)
      · exact h2
    all_goals (rw [h]; decide)
  · intro r hr hst h1 h2 h3
    obtain ⟨u1, u2, hu⟩ := List.append_of_mem hr
    subst hu
    refine mem_corsHeaders _ r ?_ h1 h2 h3
    rw [List.foldl_append, List.foldl_cons]
    refine respHeaders_survive u2 _ r ?_ ?_
    · simp only [respHeaderStep, hst, if_false]
      exact mem_headersSet.mpr (Or.inr (Prod.mk.eta).symm)
    · intro q hq e
      have hsub : ((fun p => lowerStr p.1) r :: u2.map (fun p => lowerStr p.1)).Sublist
          ((u1 ++ r :: u2).map (fun p => lowerStr p.1)) := by
        rw [List.map_append, List.map_cons]
        exact List.sublist_append_right _ _
      have hnd2 := hnodup.sublist hsub
      have hmem : lowerStr r.1 ∈ u2.map (fun p => lowerStr p.1) := by
        rw [← e]
        exact List.mem_map_of_mem _ hq
      exact (List.nodup_cons.mp hnd2).1 hmem

/-- Witness for C7 at a concrete upstream response. -/
theorem c7_witness :
    (relayResponse 418 [("Content-Type", "text/html"), ("content-length", "42")]).1 = 418 :=
  (c7_response_relay 418 [("Content-Type", "text/html"), ("content-length", "42")]
    (by decide)).1

/-- C8 fails on the code: seeded with the millisecond timestamp
1760227200129 the generator returns `199.56.143.0`, whose fourth
dot-separated octet parses as 0, outside the claimed range 1..255 (only the
first octet is guarded against 0).  This contradicts the repository's own
test asserting every octet is at least 1. -/
theorem c8_code_evaluation :
    generate_random_ip 1760227200129 = "199.56.143.0" ∧
    "0" ∈ dotSplit (generate_random_ip 1760227200129) ∧
    parseDec "0" = some 0 ∧ ¬ 1 ≤ 0 := by
  decide

/-- C9: resolving and rewriting the same inbound request with two different
generated identities yields the same outbound URL and method, header sets
agreeing on every name other than `x-forwarded-for`, and identical header
sets whenever the caller supplied the override (no synthetic value
generated). -/
theorem c9_idempotent (req : InboundRequest) (r1 r2 : String) (o1 o2 : OutboundRequest)
    (h1 : do_main req r1 = ProxyOutcome.forward o1)
    (h2 : do_main req r2 = ProxyOutcome.forward o2) :
    o1.url = o2.url ∧ o1.method = o2.method ∧
    (∀ k, lowerStr k ≠ "x-forwarded-for" →
      headerGet o1.headers k = headerGet o2.headers k) ∧
    ((copyHeaders req.headers).2 = true → o1.headers = o2.headers) := by
  obtain ⟨-, s1, t1, hs1, ht1, ho1⟩ := do_main_forward_inv req r1 o1 h1
  obtain ⟨-, s2, t2, hs2, ht2, ho2⟩ := do_main_forward_inv req r2 o2 h2
  have hse : s2 = s1 := Option.some.inj (hs2.symm.trans hs1)
  subst hse
  have hte : t2 = t1 := Option.some.inj (ht2.symm.trans ht1)
  subst hte
  subst ho1
  subst ho2
  refine ⟨rfl, rfl, ?_, ?_⟩
  · intro k hk
    show headerGet (prepareHeaders req.headers r1) k = headerGet (prepareHeaders req.headers r2) k
    unfold prepareHeaders
    by_cases hb : (copyHeaders req.headers).2
    · rw [if_pos hb, if_pos hb]
    · have hcond : ¬ lowerStr k = lowerStr "X-Forwarded-For" := by
        simpa [show lowerStr "X-Forwarded-For" = "x-forwarded-for" from by decide] using hk
      rw [if_neg hb, if_neg hb, headerGet_headersSet, headerGet_headersSet,
        if_neg hcond, if_neg hcond]
  · intro hb
    show prepareHeaders req.headers r1 = prepareHeaders req.headers r2
    unfold prepareHeaders
    rw [if_pos (by simp [hb]), if_pos (by simp [hb])]

/-- Witness for C9: the same request forwarded with two different synthetic
identities yields the same outbound URL. -/
theorem c9_witness :
    (OutboundRequest.mk ⟨"https", "example.com", "/a", []⟩
        [("X-Forwarded-For", "1.1.1.1")] "GET").url =
      (OutboundRequest.mk ⟨"https", "example.com", "/a", []⟩
        [("X-Forwarded-For", "2.2.2.2")] "GET").url :=
  (c9_idempotent ⟨"GET", "/", [("url", "https://example.com/a")], []⟩ "1.1.1.1" "2.2.2.2"
    _ _ (by decide) (by decide)).1
